import Mathlib

/-!
Verification development for the `owning-key` crate: a capability-gated
indirection layer where a "key" carries a runtime-unique `KeyId` and a
"locked" value can only be read, mutated or reverted by presenting a key
with the matching identity.

Shallow-embedding conventions used throughout this file:

* Rust panics are modelled as `Except.error` carrying the panic message.
* The process-wide atomic identity counter is modelled as explicit state
  (a `Nat` threaded through `KeyId.new`); atomic increments are sequential.
* Owned pointers (`Box`, the buffer of a `Vec`) are modelled by carrying the
  pointee value directly inside the locked struct, since ownership makes the
  address itself unobservable.  Shared-ownership handles (`Rc`, `Arc`) are
  modelled with an explicit heap of reference-counted cells, since several
  handles alias one cell.
* `usize` arithmetic is `Nat` with an explicit bound `USIZE_MAX` where
  overflow matters (only in `KeyId::new`).
-/

namespace OwningKey

/-- Model of `KeyId` (src/lib.rs): an opaque, copyable, comparable value
wrapping the `usize` taken from the global counter. -/
structure KeyId where
  id : Nat
deriving DecidableEq

/-- Largest `usize` value; the crate is compiled for 64-bit targets. -/
def USIZE_MAX : Nat := 2 ^ 64 - 1

/-- Model of `usize::checked_add(1)`: `none` exactly when the increment would
overflow the counter. -/
def checkedAdd1 (n : Nat) : Option Nat :=
  if n + 1 ≤ USIZE_MAX then some (n + 1) else none

/-- Initial value of the global `AtomicUsize` counter (`AtomicUsize::new(0)`). -/
def INITIAL_COUNTER : Nat := 0

/-- Model of `KeyId::new` (src/lib.rs): `fetch_update` with `checked_add(1)`
on the process-wide counter, returning the old value as the fresh identity;
the `expect` panic on overflow is modelled as `Except.error` with the source's
message.  The counter state is passed and returned explicitly. -/
def KeyId.new (counter : Nat) : Except String (KeyId × Nat) :=
  match checkedAdd1 counter with
  | some next => Except.ok (⟨counter⟩, next)
  | none => Except.error "unique counter for KeyId should not overflow"

/-- Minting `n` identities in sequence starting from counter state `c`,
collecting the identities in call order. -/
def mintTrace : Nat → Nat → Except String (List KeyId × Nat)
  | 0, c => Except.ok ([], c)
  | n + 1, c =>
    match KeyId.new c with
    | Except.ok (k, c') =>
      match mintTrace n c' with
      | Except.ok (ks, c'') => Except.ok (k :: ks, c'')
      | Except.error e => Except.error e
    | Except.error e => Except.error e

/-- The panic message of `check_id` (src/locked.rs), which reports both the
identity stored in the locked value and the identity of the presented key,
in the `Debug` format of `KeyId`. -/
def mismatchMsg (key_id value_id : KeyId) : String :=
  "locked value accessed with wrong key: expected KeyId \x7b id: " ++
    toString value_id.id ++ " \x7d, got KeyId \x7b id: " ++
    toString key_id.id ++ " \x7d"

/-- Model of `check_id` (src/locked.rs): compare the presented key's identity
with the identity stored in the locked value, panicking (modelled as
`Except.error`) with a message reporting both on mismatch. -/
def check_id (key_id value_id : KeyId) : Except String Unit :=
  if key_id ≠ value_id then Except.error (mismatchMsg key_id value_id)
  else Except.ok ()

/-- Model of `LockedMut<'a, T>` (src/locked.rs): an exclusively-borrowed
reference converted into a raw pointer plus the producing key's identity.
The pointee is carried directly (`value` plays the role of `ptr`, since the
reference is exclusive for `'a`). -/
structure LockedMut (α : Type) where
  value : α
  key_id : KeyId
deriving DecidableEq

namespace LockedMut

variable {α : Type}

/-- Model of `<LockedMut as Locked>::raw_lock`: capture the referent and the
key's identity. -/
def raw_lock (r : α) (key : KeyId) : LockedMut α :=
  ⟨r, key⟩

/-- Model of `<LockedMut as Locked>::raw_unlock`: check the identity, then
return the original reference (its referent). -/
def raw_unlock (self : LockedMut α) (key : KeyId) : Except String α := do
  check_id key self.key_id
  pure self.value

/-- Model of `<LockedMut as Locked>::raw_clone`: a field-for-field aliasing
copy. -/
def raw_clone (self : LockedMut α) : LockedMut α :=
  ⟨self.value, self.key_id⟩

/-- Model of `LockedMut::get`: check the identity, then read through the
pointer. -/
def get (self : LockedMut α) (key : KeyId) : Except String α := do
  check_id key self.key_id
  pure self.value

/-- Model of `LockedMut::get_mut`: check the identity, then hand out the
referent mutably. -/
def get_mut (self : LockedMut α) (key : KeyId) : Except String α := do
  check_id key self.key_id
  pure self.value

end LockedMut

/-- Model of `LockedBox<T>` (src/locked.rs): an owned heap allocation turned
into a raw pointer plus the producing key's identity; the owned pointee is
carried directly. -/
structure LockedBox (α : Type) where
  value : α
  key_id : KeyId
deriving DecidableEq

namespace LockedBox

variable {α : Type}

/-- Model of `<LockedBox as Locked>::raw_lock` (`Box::into_raw`). -/
def raw_lock (b : α) (key : KeyId) : LockedBox α :=
  ⟨b, key⟩

/-- Model of `<LockedBox as Locked>::raw_unlock` (`check_id` then
`Box::from_raw`). -/
def raw_unlock (self : LockedBox α) (key : KeyId) : Except String α := do
  check_id key self.key_id
  pure self.value

/-- Model of `<LockedBox as Locked>::raw_clone`: aliasing copy. -/
def raw_clone (self : LockedBox α) : LockedBox α :=
  ⟨self.value, self.key_id⟩

/-- Model of `LockedBox::get`. -/
def get (self : LockedBox α) (key : KeyId) : Except String α := do
  check_id key self.key_id
  pure self.value

/-- Model of `LockedBox::get_mut`. -/
def get_mut (self : LockedBox α) (key : KeyId) : Except String α := do
  check_id key self.key_id
  pure self.value

end LockedBox

/-- Model of Rust's `Vec<T>` as observed through this crate: the initialized
elements plus the capacity of the backing allocation. -/
structure RustVec (α : Type) where
  data : List α
  capacity : Nat
deriving DecidableEq

/-- Model of `LockedVec<T>` (src/locked.rs): the raw parts of a `Vec`
captured at lock time — buffer pointer (modelled by the buffer's initialized
contents), length, capacity, and the producing key's identity. -/
structure LockedVec (α : Type) where
  buf : List α
  len : Nat
  capacity : Nat
  key_id : KeyId
deriving DecidableEq

namespace LockedVec

variable {α : Type}

/-- Model of `<LockedVec as Locked>::raw_lock`: capture `vec.len()`,
`vec.capacity()` and the buffer pointer of the `ManuallyDrop`ped vector. -/
def raw_lock (vec : RustVec α) (key : KeyId) : LockedVec α :=
  ⟨vec.data, vec.data.length, vec.capacity, key⟩

/-- Model of `<LockedVec as Locked>::raw_unlock`: check the identity, then
`Vec::from_raw_parts(ptr, len, capacity)` — the reconstructed vector has
exactly the stored length and capacity. -/
def raw_unlock (self : LockedVec α) (key : KeyId) :
    Except String (RustVec α) := do
  check_id key self.key_id
  pure ⟨self.buf.take self.len, self.capacity⟩

/-- Model of `<LockedVec as Locked>::raw_clone`: aliasing copy. -/
def raw_clone (self : LockedVec α) : LockedVec α :=
  ⟨self.buf, self.len, self.capacity, self.key_id⟩

/-- Model of `LockedVec::get`: check the identity, then view the initialized
region `slice::from_raw_parts(ptr, len)`. -/
def get (self : LockedVec α) (key : KeyId) : Except String (List α) := do
  check_id key self.key_id
  pure (self.buf.take self.len)

/-- Model of `LockedVec::get_mut`: identical access path, mutable view. -/
def get_mut (self : LockedVec α) (key : KeyId) : Except String (List α) := do
  check_id key self.key_id
  pure (self.buf.take self.len)

end LockedVec

/-- Model of Rust's `String` as observed through this crate: its UTF-8 byte
vector (`String::into_bytes` / `String::from_utf8_unchecked`). -/
structure RustString where
  vec : RustVec Nat
deriving DecidableEq

/-- Model of `LockedString` (src/locked.rs): built atop `LockedVec<u8>`. -/
structure LockedString where
  inner : LockedVec Nat
deriving DecidableEq

namespace LockedString

/-- Model of `<LockedString as Locked>::raw_lock`: `s.into_bytes()` then
`LockedVec::raw_lock`. -/
def raw_lock (s : RustString) (key : KeyId) : LockedString :=
  ⟨LockedVec.raw_lock s.vec key⟩

/-- Model of `<LockedString as Locked>::raw_unlock`: inner unlock then
`String::from_utf8_unchecked`. -/
def raw_unlock (self : LockedString) (key : KeyId) :
    Except String RustString :=
  (self.inner.raw_unlock key).map RustString.mk

/-- Model of `<LockedString as Locked>::raw_clone`. -/
def raw_clone (self : LockedString) : LockedString :=
  ⟨self.inner.raw_clone⟩

/-- Model of `LockedString::len`. -/
def len (self : LockedString) : Nat :=
  self.inner.len

/-- Model of `LockedString::capacity`. -/
def capacity (self : LockedString) : Nat :=
  self.inner.capacity

/-- Model of `<LockedString as Locked>::key_id`. -/
def key_id (self : LockedString) : KeyId :=
  self.inner.key_id

/-- Model of `LockedString::get`: the `&str` view, i.e. the UTF-8 bytes of
the initialized region. -/
def get (self : LockedString) (key : KeyId) : Except String (List Nat) :=
  self.inner.get key

/-- Model of `LockedString::get_mut`: the `&mut str` view. -/
def get_mut (self : LockedString) (key : KeyId) : Except String (List Nat) :=
  self.inner.get_mut key

end LockedString

/-- Model of Rust's `CString` as observed through this crate: its bytes
including the trailing NUL (`CString::into_bytes_with_nul` /
`CString::from_vec_with_nul_unchecked`). -/
structure RustCString where
  bytes_with_nul : RustVec Nat
deriving DecidableEq

/-- Model of `LockedCString` (src/locked.rs): built atop `LockedVec<u8>`. -/
structure LockedCString where
  inner : LockedVec Nat
deriving DecidableEq

namespace LockedCString

/-- Model of `<LockedCString as Locked>::raw_lock`. -/
def raw_lock (s : RustCString) (key : KeyId) : LockedCString :=
  ⟨LockedVec.raw_lock s.bytes_with_nul key⟩

/-- Model of `<LockedCString as Locked>::raw_unlock`. -/
def raw_unlock (self : LockedCString) (key : KeyId) :
    Except String RustCString :=
  (self.inner.raw_unlock key).map RustCString.mk

/-- Model of `<LockedCString as Locked>::raw_clone`. -/
def raw_clone (self : LockedCString) : LockedCString :=
  ⟨self.inner.raw_clone⟩

/-- Model of `<LockedCString as Locked>::key_id`. -/
def key_id (self : LockedCString) : KeyId :=
  self.inner.key_id

/-- Model of `LockedCString::get`: the `&CStr` view, i.e. the bytes with the
trailing NUL. -/
def get (self : LockedCString) (key : KeyId) : Except String (List Nat) :=
  self.inner.get key

end LockedCString

/-- Model of a reference-counted heap cell (the allocation behind `Rc<T>` or
`Arc<T>`): the value plus its strong (owning) and weak (non-owning) counts. -/
structure RcCell (α : Type) where
  value : α
  strong : Nat
  weak : Nat
deriving DecidableEq

/-- The heap of reference-counted allocations; a pointer is an index. -/
abbrev RcHeap (α : Type) := List (RcCell α)

/-- Replace the cell at pointer `p`, when it exists. -/
def RcHeap.setCell {α : Type} (h : RcHeap α) (p : Nat)
    (f : RcCell α → RcCell α) : RcHeap α :=
  match h.get? p with
  | some c => h.set p (f c)
  | none => h

/-- The strong (owner) count of the allocation at `p`, when it exists. -/
def RcHeap.strong_count {α : Type} (h : RcHeap α) (p : Nat) : Option Nat :=
  (h.get? p).map RcCell.strong

/-- The weak count of the allocation at `p`, when it exists. -/
def RcHeap.weak_count {α : Type} (h : RcHeap α) (p : Nat) : Option Nat :=
  (h.get? p).map RcCell.weak

/-- Model of `Rc<T>`: a strong handle to a reference-counted allocation. -/
structure Rc (α : Type) where
  ptr : Nat
deriving DecidableEq

/-- Model of `rc::Weak<T>`: a non-owning handle. -/
structure RcWeak (α : Type) where
  ptr : Nat
deriving DecidableEq

/-- Model of `LockedRc<T>` (src/locked.rs): the raw pointer taken from
`Rc::into_raw` plus the producing key's identity.  `into_raw` forgets the
handle without touching the counts, so the locked value still accounts for
one strong owner. -/
structure LockedRc (α : Type) where
  ptr : Nat
  key_id : KeyId
deriving DecidableEq

namespace LockedRc

variable {α : Type}

/-- Model of `<LockedRc as Locked>::raw_lock` (`Rc::into_raw`); the heap is
untouched. -/
def raw_lock (rc : Rc α) (key : KeyId) : LockedRc α :=
  ⟨rc.ptr, key⟩

/-- Model of `<LockedRc as Locked>::raw_unlock` (`check_id` then
`Rc::from_raw`); the heap is untouched. -/
def raw_unlock (self : LockedRc α) (key : KeyId) : Except String (Rc α) := do
  check_id key self.key_id
  pure ⟨self.ptr⟩

/-- Model of `<LockedRc as Locked>::raw_clone`: aliasing copy. -/
def raw_clone (self : LockedRc α) : LockedRc α :=
  ⟨self.ptr, self.key_id⟩

/-- Model of `LockedRc::get`: check the identity, then read the shared
allocation. -/
def get (self : LockedRc α) (key : KeyId) (h : RcHeap α) :
    Except String (Option α) := do
  check_id key self.key_id
  pure ((h.get? self.ptr).map RcCell.value)

/-- Model of `LockedRc::get_mut`: check the identity, then `Rc::get_mut` on
the reconstructed (`ManuallyDrop`ped, so counts are unchanged) handle.
`Rc::get_mut` yields `Some` exactly when the allocation is unique: strong
count 1 and weak count 0. -/
def get_mut (self : LockedRc α) (key : KeyId) (h : RcHeap α) :
    Except String (Option α) := do
  check_id key self.key_id
  match h.get? self.ptr with
  | some c => if c.strong = 1 ∧ c.weak = 0 then pure (some c.value)
              else pure none
  | none => pure none

/-- Model of `LockedRc::clone`: check the identity, then
`Rc::increment_strong_count` followed by `Rc::from_raw`, yielding a new
strong handle to the same allocation. -/
def clone (self : LockedRc α) (key : KeyId) (h : RcHeap α) :
    Except String (Rc α × RcHeap α) := do
  check_id key self.key_id
  pure (⟨self.ptr⟩, h.setCell self.ptr (fun c => { c with strong := c.strong + 1 }))

/-- Model of `LockedRc::downgrade`: check the identity, then `Rc::downgrade`
on the reconstructed handle, yielding a weak handle and incrementing the weak
count. -/
def downgrade (self : LockedRc α) (key : KeyId) (h : RcHeap α) :
    Except String (RcWeak α × RcHeap α) := do
  check_id key self.key_id
  pure (⟨self.ptr⟩, h.setCell self.ptr (fun c => { c with weak := c.weak + 1 }))

end LockedRc

/-- Model of `Arc<T>`: a strong handle to an atomically reference-counted
allocation (atomicity of the counts is not modelled; operations are
sequential). -/
structure Arc (α : Type) where
  ptr : Nat
deriving DecidableEq

/-- Model of `sync::Weak<T>`. -/
structure ArcWeak (α : Type) where
  ptr : Nat
deriving DecidableEq

/-- Model of `LockedArc<T>` (src/locked.rs): the raw pointer taken from
`Arc::into_raw` plus the producing key's identity. -/
structure LockedArc (α : Type) where
  ptr : Nat
  key_id : KeyId
deriving DecidableEq

namespace LockedArc

variable {α : Type}

/-- Model of `<LockedArc as Locked>::raw_lock` (`Arc::into_raw`). -/
def raw_lock (arc : Arc α) (key : KeyId) : LockedArc α :=
  ⟨arc.ptr, key⟩

/-- Model of `<LockedArc as Locked>::raw_unlock` (`check_id` then
`Arc::from_raw`). -/
def raw_unlock (self : LockedArc α) (key : KeyId) : Except String (Arc α) := do
  check_id key self.key_id
  pure ⟨self.ptr⟩

/-- Model of `<LockedArc as Locked>::raw_clone`: aliasing copy. -/
def raw_clone (self : LockedArc α) : LockedArc α :=
  ⟨self.ptr, self.key_id⟩

/-- Model of `LockedArc::get`. -/
def get (self : LockedArc α) (key : KeyId) (h : RcHeap α) :
    Except String (Option α) := do
  check_id key self.key_id
  pure ((h.get? self.ptr).map RcCell.value)

/-- Model of `LockedArc::get_mut`: `Arc::get_mut` yields `Some` exactly when
the allocation is unique (strong count 1, weak count 0). -/
def get_mut (self : LockedArc α) (key : KeyId) (h : RcHeap α) :
    Except String (Option α) := do
  check_id key self.key_id
  match h.get? self.ptr with
  | some c => if c.strong = 1 ∧ c.weak = 0 then pure (some c.value)
              else pure none
  | none => pure none

/-- Model of `LockedArc::clone` (`Arc::increment_strong_count` then
`Arc::from_raw`). -/
def clone (self : LockedArc α) (key : KeyId) (h : RcHeap α) :
    Except String (Arc α × RcHeap α) := do
  check_id key self.key_id
  pure (⟨self.ptr⟩, h.setCell self.ptr (fun c => { c with strong := c.strong + 1 }))

/-- Model of `LockedArc::downgrade`. -/
def downgrade (self : LockedArc α) (key : KeyId) (h : RcHeap α) :
    Except String (ArcWeak α × RcHeap α) := do
  check_id key self.key_id
  pure (⟨self.ptr⟩, h.setCell self.ptr (fun c => { c with weak := c.weak + 1 }))

end LockedArc

/-- Model of the `Locked` trait (src/lib.rs) as an explicit dictionary:
`L` is the locked type, `U` its `Unlocked` associated type.  `raw_lock` and
`raw_unlock` take the key's identity (the only part of a `Key` the
implementations consult). -/
structure LockedOps (L : Type) (U : Type) where
  key_id : L → KeyId
  raw_lock : U → KeyId → L
  raw_unlock : L → KeyId → Except String U
  raw_clone : L → L

/-- The `Locked` dictionary of `LockedMut`. -/
def LockedMut.ops {α : Type} : LockedOps (LockedMut α) α :=
  ⟨LockedMut.key_id, LockedMut.raw_lock, LockedMut.raw_unlock,
    LockedMut.raw_clone⟩

/-- The `Locked` dictionary of `LockedBox`. -/
def LockedBox.ops {α : Type} : LockedOps (LockedBox α) α :=
  ⟨LockedBox.key_id, LockedBox.raw_lock, LockedBox.raw_unlock,
    LockedBox.raw_clone⟩

/-- The `Locked` dictionary of `LockedVec`. -/
def LockedVec.ops {α : Type} : LockedOps (LockedVec α) (RustVec α) :=
  ⟨LockedVec.key_id, LockedVec.raw_lock, LockedVec.raw_unlock,
    LockedVec.raw_clone⟩

/-- The `Locked` dictionary of `LockedString`. -/
def LockedString.ops : LockedOps LockedString RustString :=
  ⟨LockedString.key_id, LockedString.raw_lock, LockedString.raw_unlock,
    LockedString.raw_clone⟩

/-- The `Locked` dictionary of `LockedCString`. -/
def LockedCString.ops : LockedOps LockedCString RustCString :=
  ⟨LockedCString.key_id, LockedCString.raw_lock, LockedCString.raw_unlock,
    LockedCString.raw_clone⟩

/-- The `Locked` dictionary of `LockedRc`. -/
def LockedRc.ops {α : Type} : LockedOps (LockedRc α) (Rc α) :=
  ⟨LockedRc.key_id, LockedRc.raw_lock, LockedRc.raw_unlock,
    LockedRc.raw_clone⟩

/-- The `Locked` dictionary of `LockedArc`. -/
def LockedArc.ops {α : Type} : LockedOps (LockedArc α) (Arc α) :=
  ⟨LockedArc.key_id, LockedArc.raw_lock, LockedArc.raw_unlock,
    LockedArc.raw_clone⟩

/-- Model of `ForgettingKey` (src/key.rs): the minimal key, wrapping a minted
identity and performing no bookkeeping. -/
structure ForgettingKey where
  id : KeyId
deriving DecidableEq

/-- Model of `ForgettingKey::lock`: `T::raw_lock(value, self)`. -/
def ForgettingKey.lock {L U : Type} (ops : LockedOps L U)
    (key : ForgettingKey) (value : U) : L :=
  ops.raw_lock value key.id

/-- Model of `ForgettingKey::unlock`: `value.raw_unlock(self)`. -/
def ForgettingKey.unlock {L U : Type} (ops : LockedOps L U)
    (key : ForgettingKey) (value : L) : Except String U :=
  ops.raw_unlock value key.id

/-- Model of `Dropper<'a>` (src/key.rs): a type-erased finalizer record — a
heap cell (identified by its unique box address `ptr`) holding an aliasing
copy of one locked value, plus the specialized `unlock_drop` callback.
Equality and hashing in the source are over `ptr` alone. -/
structure Dropper (L : Type) where
  ptr : Nat
  value : L
deriving DecidableEq

/-- Model of `Dropper::unlock_drop`: reconstruct the box, take the locked
value, unlock it with the borrowed `ForgettingKey` and drop the result.  The
unlocked value is returned as the observable release event; a panic inside
the finalizer is the `Except.error` case. -/
def Dropper.unlock_drop {L U : Type} (ops : LockedOps L U) (d : Dropper L)
    (key : ForgettingKey) : Except String U :=
  ops.raw_unlock d.value key.id

/-- Observable outcome of a bulk teardown pass: it either completes normally,
propagates a single panic after finishing the remaining records, or aborts
(double panic).  `released` lists the successfully released values in
processing order. -/
inductive TeardownOutcome (α : Type) where
  | completed (released : List α)
  | panicked (released : List α) (msg : String)
  | aborted (released : List α) (first second : String)
deriving DecidableEq

/-- The drop-guard pass of `unlock_drop_all` (src/key.rs): after a panic in
the main loop, `DropGuard::drop` keeps releasing the remaining records; a
second panic during this unwinding pass aborts the process immediately. -/
def guardRun {L U : Type} (ops : LockedOps L U) (key : ForgettingKey) :
    List (Dropper L) → List U × Option String
  | [] => ([], none)
  | d :: ds =>
    match d.unlock_drop ops key with
    | Except.ok v =>
      let r := guardRun ops key ds
      (v :: r.1, r.2)
    | Except.error e => ([], some e)

/-- Model of `unlock_drop_all` (src/key.rs): release every record in order;
if one finalizer panics, the `DropGuard` still releases the remaining
records before the panic propagates (`panicked`); a second panic while doing
so aborts (`aborted`). -/
def unlock_drop_all {L U : Type} (ops : LockedOps L U) (key : ForgettingKey) :
    List (Dropper L) → TeardownOutcome U
  | [] => TeardownOutcome.completed []
  | d :: ds =>
    match d.unlock_drop ops key with
    | Except.ok v =>
      match unlock_drop_all ops key ds with
      | TeardownOutcome.completed vs => TeardownOutcome.completed (v :: vs)
      | TeardownOutcome.panicked vs e => TeardownOutcome.panicked (v :: vs) e
      | TeardownOutcome.aborted vs e1 e2 => TeardownOutcome.aborted (v :: vs) e1 e2
    | Except.error e =>
      match guardRun ops key ds with
      | (vs, none) => TeardownOutcome.panicked vs e
      | (vs, some e2) => TeardownOutcome.aborted vs e e2

/-- Model of `Dropping<T>` (src/key.rs): a locked value tagged with the box
address of its registry record. -/
structure Dropping (L : Type) where
  value : L
  ptr : Nat
deriving DecidableEq

/-- Model of `LocalDroppingKey<'a>` (src/key.rs): an inner `ForgettingKey`
plus the registry (`RefCell<HashSet<Dropper>>`, modelled as a list of records
with distinct `ptr`s).  `next_ptr` models the allocator: each new dropper box
gets a fresh, never-before-used address. -/
structure LocalDroppingKey (L : Type) where
  inner : ForgettingKey
  droppers : List (Dropper L)
  next_ptr : Nat

namespace LocalDroppingKey

variable {L U : Type}

/-- Model of `LocalDroppingKey::new` with the minted identity passed in. -/
def new (id : KeyId) : LocalDroppingKey L :=
  ⟨⟨id⟩, [], 0⟩

/-- Model of `<LocalDroppingKey as Key>::id`. -/
def id (self : LocalDroppingKey L) : KeyId :=
  self.inner.id

/-- Model of `LocalDroppingKey::lock`: lock via the inner key, box an
aliasing copy as a new finalizer record, insert it into the registry
(`unreachable!` if the address already exists), and return the locked value
tagged with the record's address. -/
def lock (ops : LockedOps L U) (self : LocalDroppingKey L) (value : U) :
    Except String (Dropping L × LocalDroppingKey L) :=
  let locked := ForgettingKey.lock ops self.inner value
  let d : Dropper L := ⟨self.next_ptr, ops.raw_clone locked⟩
  if self.droppers.any (fun d0 => decide (d0.ptr = d.ptr)) then
    Except.error "box address should be unique"
  else
    Except.ok (⟨locked, d.ptr⟩,
      ⟨self.inner, self.droppers ++ [d], self.next_ptr + 1⟩)

/-- Model of `LocalDroppingKey::unlock`: unlock via the inner key, then
remove the matching record from the registry (`unreachable!` if absent). -/
def unlock (ops : LockedOps L U) (self : LocalDroppingKey L)
    (value : Dropping L) : Except String (U × LocalDroppingKey L) := do
  let v ← ForgettingKey.unlock ops self.inner value.value
  if self.droppers.any (fun d0 => decide (d0.ptr = value.ptr)) then
    pure (v, ⟨self.inner,
      self.droppers.filter (fun d0 => decide (d0.ptr ≠ value.ptr)),
      self.next_ptr⟩)
  else
    Except.error "value should correspond to dropper"

/-- Model of `<LocalDroppingKey as Drop>::drop`: drain the registry and run
`unlock_drop_all` over all remaining records with the inner key. -/
def teardown (ops : LockedOps L U) (self : LocalDroppingKey L) :
    TeardownOutcome U :=
  unlock_drop_all ops self.inner self.droppers

/-- Locking a list of values in sequence through the bookkeeping key. -/
def lockAll (ops : LockedOps L U) (self : LocalDroppingKey L) :
    List U → Except String (List (Dropping L) × LocalDroppingKey L)
  | [] => Except.ok ([], self)
  | v :: vs => do
    let (d, k') ← self.lock ops v
    let (ds, k'') ← k'.lockAll ops vs
    pure (d :: ds, k'')

/-- Explicitly unlocking a list of previously locked values in sequence. -/
def unlockAll (ops : LockedOps L U) (self : LocalDroppingKey L) :
    List (Dropping L) → Except String (List U × LocalDroppingKey L)
  | [] => Except.ok ([], self)
  | d :: ds => do
    let (v, k') ← self.unlock ops d
    let (vs, k'') ← k'.unlockAll ops ds
    pure (v :: vs, k'')

end LocalDroppingKey

/-- Model of `DroppingKey<'a>` (src/key.rs): the thread-safe flavor; the
registry lives behind a `Mutex` (the lock is held only per insert/remove and
is not observable in this sequential model). -/
structure DroppingKey (L : Type) where
  inner : ForgettingKey
  droppers : List (Dropper L)
  next_ptr : Nat

namespace DroppingKey

variable {L U : Type}

/-- Model of `DroppingKey::new` with the minted identity passed in. -/
def new (id : KeyId) : DroppingKey L :=
  ⟨⟨id⟩, [], 0⟩

/-- Model of `<DroppingKey as Key>::id`. -/
def id (self : DroppingKey L) : KeyId :=
  self.inner.id

/-- Model of `DroppingKey::lock` (same body as the single-owner flavor, with
the registry mutated under the mutex). -/
def lock (ops : LockedOps L U) (self : DroppingKey L) (value : U) :
    Except String (Dropping L × DroppingKey L) :=
  let locked := ForgettingKey.lock ops self.inner value
  let d : Dropper L := ⟨self.next_ptr, ops.raw_clone locked⟩
  if self.droppers.any (fun d0 => decide (d0.ptr = d.ptr)) then
    Except.error "box address should be unique"
  else
    Except.ok (⟨locked, d.ptr⟩,
      ⟨self.inner, self.droppers ++ [d], self.next_ptr + 1⟩)

/-- Model of `DroppingKey::unlock`. -/
def unlock (ops : LockedOps L U) (self : DroppingKey L)
    (value : Dropping L) : Except String (U × DroppingKey L) := do
  let v ← ForgettingKey.unlock ops self.inner value.value
  if self.droppers.any (fun d0 => decide (d0.ptr = value.ptr)) then
    pure (v, ⟨self.inner,
      self.droppers.filter (fun d0 => decide (d0.ptr ≠ value.ptr)),
      self.next_ptr⟩)
  else
    Except.error "value should correspond to dropper"

/-- Model of `<DroppingKey as Drop>::drop`. -/
def teardown (ops : LockedOps L U) (self : DroppingKey L) :
    TeardownOutcome U :=
  unlock_drop_all ops self.inner self.droppers

/-- Locking a list of values in sequence through the bookkeeping key. -/
def lockAll (ops : LockedOps L U) (self : DroppingKey L) :
    List U → Except String (List (Dropping L) × DroppingKey L)
  | [] => Except.ok ([], self)
  | v :: vs => do
    let (d, k') ← self.lock ops v
    let (ds, k'') ← k'.lockAll ops vs
    pure (d :: ds, k'')

/-- Explicitly unlocking a list of previously locked values in sequence. -/
def unlockAll (ops : LockedOps L U) (self : DroppingKey L) :
    List (Dropping L) → Except String (List U × DroppingKey L)
  | [] => Except.ok ([], self)
  | d :: ds => do
    let (v, k') ← self.unlock ops d
    let (vs, k'') ← k'.unlockAll ops ds
    pure (v :: vs, k'')

end DroppingKey

/-- The finalizer records appended to a bookkeeping key's registry by
locking the values `vs` in order under identity `kid`, the first record
getting the fresh box address `p`. -/
def newEntries {L U : Type} (ops : LockedOps L U) (kid : KeyId) :
    Nat → List U → List (Dropper L)
  | _, [] => []
  | p, v :: vs =>
    ⟨p, ops.raw_clone (ops.raw_lock v kid)⟩ :: newEntries ops kid (p + 1) vs

/-- The tagged locked values returned by locking `vs` in order under
identity `kid`, the first getting the fresh box address `p`. -/
def newDroppings {L U : Type} (ops : LockedOps L U) (kid : KeyId) :
    Nat → List U → List (Dropping L)
  | _, [] => []
  | p, v :: vs =>
    ⟨ops.raw_lock v kid, p⟩ :: newDroppings ops kid (p + 1) vs

theorem check_id_self (k : KeyId) : check_id k k = Except.ok () := by
  simp [check_id]

theorem check_id_ne {k v : KeyId} (h : k ≠ v) :
    check_id k v = Except.error (mismatchMsg k v) := by
  simp [check_id, h]

theorem error_bind {ε α β : Type} (e : ε) (f : α → Except ε β) :
    (Except.error e >>= f) = Except.error e :=
  rfl

theorem ok_bind {ε α β : Type} (a : α) (f : α → Except ε β) :
    (Except.ok a >>= f : Except ε β) = f a :=
  rfl

theorem mintTrace_eq (n : Nat) : ∀ c : Nat, c + n ≤ USIZE_MAX →
    mintTrace n c = Except.ok ((List.range' c n).map KeyId.mk, c + n) := by
  induction n with
  | zero => intro c _; simp [mintTrace]
  | succ n ih =>
    intro c h
    have h1 : c + 1 ≤ USIZE_MAX := by omega
    have h2 := ih (c + 1) (by omega)
    simp [mintTrace, KeyId.new, checkedAdd1, h1, h2, List.range'_succ]
    omega

/-- C7: every call to `KeyId::new` returns an identity distinct from, and
wrapping an integer strictly greater than, every earlier call's identity:
the identities come from the single process-wide counter initialized to
zero, incremented on each mint (the trace of `n` mints from the initial
state is exactly `0, 1, …, n-1`, strictly increasing, hence never reused),
and minting panics if the counter would overflow. -/
theorem keyid_minting_monotone_unique (n : Nat) (hn : n ≤ USIZE_MAX) :
    mintTrace n INITIAL_COUNTER =
      Except.ok ((List.range n).map KeyId.mk, n) ∧
    ((List.range n).map KeyId.mk).Pairwise (fun a b => a.id < b.id) ∧
    KeyId.new USIZE_MAX =
      Except.error "unique counter for KeyId should not overflow" := by
  refine ⟨?_, ?_, ?_⟩
  · have := mintTrace_eq n 0 (by omega)
    simpa [INITIAL_COUNTER, List.range_eq_range'] using this
  · exact (List.pairwise_lt_range n).map KeyId.mk (fun a b hab => hab)
  · simp [KeyId.new, checkedAdd1]

/-- Witness for C7 at `n = 3`: the first three minted identities are
`0, 1, 2`. -/
theorem keyid_minting_monotone_unique_witness :
    3 ≤ USIZE_MAX ∧
    (mintTrace 3 INITIAL_COUNTER =
        Except.ok ((List.range 3).map KeyId.mk, 3) ∧
      ((List.range 3).map KeyId.mk).Pairwise (fun a b => a.id < b.id) ∧
      KeyId.new USIZE_MAX =
        Except.error "unique counter for KeyId should not overflow") :=
  ⟨by decide, keyid_minting_monotone_unique 3 (by decide)⟩

/-- C2: for every locked variant, locking an unlocked value with a key and
immediately unlocking it with a key reporting the same identity returns a
value observably equal to the original. -/
theorem lock_unlock_round_trip {α : Type} (key : ForgettingKey) (x : α)
    (vec : RustVec α) (s : RustString) (cs : RustCString)
    (rc : Rc α) (arc : Arc α) :
    key.unlock LockedMut.ops (key.lock LockedMut.ops x) = Except.ok x ∧
    key.unlock LockedBox.ops (key.lock LockedBox.ops x) = Except.ok x ∧
    key.unlock LockedVec.ops (key.lock LockedVec.ops vec) = Except.ok vec ∧
    key.unlock LockedString.ops (key.lock LockedString.ops s) =
      Except.ok s ∧
    key.unlock LockedCString.ops (key.lock LockedCString.ops cs) =
      Except.ok cs ∧
    key.unlock LockedRc.ops (key.lock LockedRc.ops rc) = Except.ok rc ∧
    key.unlock LockedArc.ops (key.lock LockedArc.ops arc) = Except.ok arc := by
  refine ⟨?_, ?_, ?_, ?_, ?_, ?_, ?_⟩ <;>
    simp [ForgettingKey.lock, ForgettingKey.unlock, LockedMut.ops,
      LockedBox.ops, LockedVec.ops, LockedString.ops, LockedCString.ops,
      LockedRc.ops, LockedArc.ops, LockedMut.raw_lock, LockedMut.raw_unlock,
      LockedBox.raw_lock, LockedBox.raw_unlock, LockedVec.raw_lock,
      LockedVec.raw_unlock, LockedString.raw_lock, LockedString.raw_unlock,
      LockedCString.raw_lock, LockedCString.raw_unlock, LockedRc.raw_lock,
      LockedRc.raw_unlock, LockedArc.raw_lock, LockedArc.raw_unlock,
      check_id_self, Except.bind, Except.map]

/-- C4: for every growable-buffer-family variant, locking a buffer with
length `L` and capacity `C` captures exactly those, and unlocking with the
matching key yields a buffer with exactly length `L` and capacity `C`. -/
theorem buffer_shape_preserved {α : Type} (key : ForgettingKey)
    (vec : RustVec α) (s : RustString) (cs : RustCString) :
    (LockedVec.raw_lock vec key.id).len = vec.data.length ∧
    (LockedVec.raw_lock vec key.id).capacity = vec.capacity ∧
    (key.unlock LockedVec.ops (key.lock LockedVec.ops vec)).map
        (fun w => (w.data.length, w.capacity)) =
      Except.ok (vec.data.length, vec.capacity) ∧
    (LockedString.raw_lock s key.id).len = s.vec.data.length ∧
    (LockedString.raw_lock s key.id).capacity = s.vec.capacity ∧
    (key.unlock LockedString.ops (key.lock LockedString.ops s)).map
        (fun w => (w.vec.data.length, w.vec.capacity)) =
      Except.ok (s.vec.data.length, s.vec.capacity) ∧
    (key.unlock LockedCString.ops (key.lock LockedCString.ops cs)).map
        (fun w => (w.bytes_with_nul.data.length, w.bytes_with_nul.capacity)) =
      Except.ok (cs.bytes_with_nul.data.length, cs.bytes_with_nul.capacity) := by
  refine ⟨rfl, rfl, ?_, rfl, rfl, ?_, ?_⟩ <;>
    simp [ForgettingKey.lock, ForgettingKey.unlock, LockedVec.ops,
      LockedString.ops, LockedCString.ops, LockedVec.raw_lock,
      LockedVec.raw_unlock, LockedString.raw_lock, LockedString.raw_unlock,
      LockedCString.raw_lock, LockedCString.raw_unlock, check_id_self,
      Except.bind, Except.map]

/-- C10: the length and capacity accessors of the growable-buffer variants
and the `key_id` accessor of every variant take no key (their types mention
no key argument), always succeed (they are total, not `Except`-valued), and
return exactly the length, capacity and identity captured at lock time. -/
theorem keyless_accessors_exact {α : Type} (kid : KeyId) (x : α)
    (vec : RustVec α) (s : RustString) (cs : RustCString)
    (rc : Rc α) (arc : Arc α) :
    (LockedVec.raw_lock vec kid).len = vec.data.length ∧
    (LockedVec.raw_lock vec kid).capacity = vec.capacity ∧
    (LockedString.raw_lock s kid).len = s.vec.data.length ∧
    (LockedString.raw_lock s kid).capacity = s.vec.capacity ∧
    (LockedMut.raw_lock x kid).key_id = kid ∧
    (LockedBox.raw_lock x kid).key_id = kid ∧
    (LockedVec.raw_lock vec kid).key_id = kid ∧
    (LockedString.raw_lock s kid).key_id = kid ∧
    (LockedCString.raw_lock cs kid).key_id = kid ∧
    (LockedRc.raw_lock rc kid).key_id = kid ∧
    (LockedArc.raw_lock arc kid).key_id = kid :=
  ⟨rfl, rfl, rfl, rfl, rfl, rfl, rfl, rfl, rfl, rfl, rfl⟩

/-- C1: for every locked variant, every safe accessor and unlock operation
that takes a key (`get`, `get_mut`, `raw_unlock`, and the shared-ownership
`clone` and `downgrade`) fails on a value locked under identity `v` when
invoked with a key of different identity `k`: it panics with the `check_id`
message reporting both identities and never returns a value.  The error is
the same for every stored payload and for every heap `h` (including the
empty one), so the failing operation reads and modifies no storage. -/
theorem wrong_key_always_fails {α : Type} (k v : KeyId) (hne : k ≠ v) (x : α)
    (vec : RustVec α) (s : RustString) (cs : RustCString)
    (rc : Rc α) (arc : Arc α) (h : RcHeap α) :
    (LockedMut.raw_lock x v).get k = Except.error (mismatchMsg k v) ∧
    (LockedMut.raw_lock x v).get_mut k = Except.error (mismatchMsg k v) ∧
    (LockedMut.raw_lock x v).raw_unlock k = Except.error (mismatchMsg k v) ∧
    (LockedBox.raw_lock x v).get k = Except.error (mismatchMsg k v) ∧
    (LockedBox.raw_lock x v).get_mut k = Except.error (mismatchMsg k v) ∧
    (LockedBox.raw_lock x v).raw_unlock k = Except.error (mismatchMsg k v) ∧
    (LockedVec.raw_lock vec v).get k = Except.error (mismatchMsg k v) ∧
    (LockedVec.raw_lock vec v).get_mut k = Except.error (mismatchMsg k v) ∧
    (LockedVec.raw_lock vec v).raw_unlock k = Except.error (mismatchMsg k v) ∧
    (LockedString.raw_lock s v).get k = Except.error (mismatchMsg k v) ∧
    (LockedString.raw_lock s v).get_mut k = Except.error (mismatchMsg k v) ∧
    (LockedString.raw_lock s v).raw_unlock k =
      Except.error (mismatchMsg k v) ∧
    (LockedCString.raw_lock cs v).get k = Except.error (mismatchMsg k v) ∧
    (LockedCString.raw_lock cs v).raw_unlock k =
      Except.error (mismatchMsg k v) ∧
    (LockedRc.raw_lock rc v).get k h = Except.error (mismatchMsg k v) ∧
    (LockedRc.raw_lock rc v).get_mut k h = Except.error (mismatchMsg k v) ∧
    (LockedRc.raw_lock rc v).clone k h = Except.error (mismatchMsg k v) ∧
    (LockedRc.raw_lock rc v).downgrade k h = Except.error (mismatchMsg k v) ∧
    (LockedRc.raw_lock rc v).raw_unlock k = Except.error (mismatchMsg k v) ∧
    (LockedArc.raw_lock arc v).get k h = Except.error (mismatchMsg k v) ∧
    (LockedArc.raw_lock arc v).get_mut k h = Except.error (mismatchMsg k v) ∧
    (LockedArc.raw_lock arc v).clone k h = Except.error (mismatchMsg k v) ∧
    (LockedArc.raw_lock arc v).downgrade k h =
      Except.error (mismatchMsg k v) ∧
    (LockedArc.raw_lock arc v).raw_unlock k = Except.error (mismatchMsg k v) := by
  refine ⟨?_, ?_, ?_, ?_, ?_, ?_, ?_, ?_, ?_, ?_, ?_, ?_, ?_, ?_, ?_, ?_,
    ?_, ?_, ?_, ?_, ?_, ?_, ?_, ?_⟩ <;>
    simp [LockedMut.raw_lock, LockedMut.get, LockedMut.get_mut,
      LockedMut.raw_unlock, LockedBox.raw_lock, LockedBox.get,
      LockedBox.get_mut, LockedBox.raw_unlock, LockedVec.raw_lock,
      LockedVec.get, LockedVec.get_mut, LockedVec.raw_unlock,
      LockedString.raw_lock, LockedString.get, LockedString.get_mut,
      LockedString.raw_unlock, LockedCString.raw_lock, LockedCString.get,
      LockedCString.raw_unlock, LockedRc.raw_lock, LockedRc.get,
      LockedRc.get_mut, LockedRc.clone, LockedRc.downgrade,
      LockedRc.raw_unlock, LockedArc.raw_lock, LockedArc.get,
      LockedArc.get_mut, LockedArc.clone, LockedArc.downgrade,
      LockedArc.raw_unlock, check_id_ne hne, Except.bind, Except.map,
      error_bind]

/-- Witness for C1 at identities `0 ≠ 1`, payload `0`, and the empty heap. -/
theorem wrong_key_always_fails_witness :
    (⟨0⟩ : KeyId) ≠ ⟨1⟩ ∧
    ((LockedMut.raw_lock (0 : Nat) ⟨1⟩).get ⟨0⟩ =
        Except.error (mismatchMsg ⟨0⟩ ⟨1⟩) ∧
      (LockedMut.raw_lock (0 : Nat) ⟨1⟩).get_mut ⟨0⟩ =
        Except.error (mismatchMsg ⟨0⟩ ⟨1⟩) ∧
      (LockedMut.raw_lock (0 : Nat) ⟨1⟩).raw_unlock ⟨0⟩ =
        Except.error (mismatchMsg ⟨0⟩ ⟨1⟩) ∧
      (LockedBox.raw_lock (0 : Nat) ⟨1⟩).get ⟨0⟩ =
        Except.error (mismatchMsg ⟨0⟩ ⟨1⟩) ∧
      (LockedBox.raw_lock (0 : Nat) ⟨1⟩).get_mut ⟨0⟩ =
        Except.error (mismatchMsg ⟨0⟩ ⟨1⟩) ∧
      (LockedBox.raw_lock (0 : Nat) ⟨1⟩).raw_unlock ⟨0⟩ =
        Except.error (mismatchMsg ⟨0⟩ ⟨1⟩) ∧
      (LockedVec.raw_lock (α := Nat) ⟨[], 0⟩ ⟨1⟩).get ⟨0⟩ =
        Except.error (mismatchMsg ⟨0⟩ ⟨1⟩) ∧
      (LockedVec.raw_lock (α := Nat) ⟨[], 0⟩ ⟨1⟩).get_mut ⟨0⟩ =
        Except.error (mismatchMsg ⟨0⟩ ⟨1⟩) ∧
      (LockedVec.raw_lock (α := Nat) ⟨[], 0⟩ ⟨1⟩).raw_unlock ⟨0⟩ =
        Except.error (mismatchMsg ⟨0⟩ ⟨1⟩) ∧
      (LockedString.raw_lock ⟨⟨[], 0⟩⟩ ⟨1⟩).get ⟨0⟩ =
        Except.error (mismatchMsg ⟨0⟩ ⟨1⟩) ∧
      (LockedString.raw_lock ⟨⟨[], 0⟩⟩ ⟨1⟩).get_mut ⟨0⟩ =
        Except.error (mismatchMsg ⟨0⟩ ⟨1⟩) ∧
      (LockedString.raw_lock ⟨⟨[], 0⟩⟩ ⟨1⟩).raw_unlock ⟨0⟩ =
        Except.error (mismatchMsg ⟨0⟩ ⟨1⟩) ∧
      (LockedCString.raw_lock ⟨⟨[], 0⟩⟩ ⟨1⟩).get ⟨0⟩ =
        Except.error (mismatchMsg ⟨0⟩ ⟨1⟩) ∧
      (LockedCString.raw_lock ⟨⟨[], 0⟩⟩ ⟨1⟩).raw_unlock ⟨0⟩ =
        Except.error (mismatchMsg ⟨0⟩ ⟨1⟩) ∧
      (LockedRc.raw_lock (α := Nat) ⟨0⟩ ⟨1⟩).get ⟨0⟩ [] =
        Except.error (mismatchMsg ⟨0⟩ ⟨1⟩) ∧
      (LockedRc.raw_lock (α := Nat) ⟨0⟩ ⟨1⟩).get_mut ⟨0⟩ [] =
        Except.error (mismatchMsg ⟨0⟩ ⟨1⟩) ∧
      (LockedRc.raw_lock (α := Nat) ⟨0⟩ ⟨1⟩).clone ⟨0⟩ [] =
        Except.error (mismatchMsg ⟨0⟩ ⟨1⟩) ∧
      (LockedRc.raw_lock (α := Nat) ⟨0⟩ ⟨1⟩).downgrade ⟨0⟩ [] =
        Except.error (mismatchMsg ⟨0⟩ ⟨1⟩) ∧
      (LockedRc.raw_lock (α := Nat) ⟨0⟩ ⟨1⟩).raw_unlock ⟨0⟩ =
        Except.error (mismatchMsg ⟨0⟩ ⟨1⟩) ∧
      (LockedArc.raw_lock (α := Nat) ⟨0⟩ ⟨1⟩).get ⟨0⟩ [] =
        Except.error (mismatchMsg ⟨0⟩ ⟨1⟩) ∧
      (LockedArc.raw_lock (α := Nat) ⟨0⟩ ⟨1⟩).get_mut ⟨0⟩ [] =
        Except.error (mismatchMsg ⟨0⟩ ⟨1⟩) ∧
      (LockedArc.raw_lock (α := Nat) ⟨0⟩ ⟨1⟩).clone ⟨0⟩ [] =
        Except.error (mismatchMsg ⟨0⟩ ⟨1⟩) ∧
      (LockedArc.raw_lock (α := Nat) ⟨0⟩ ⟨1⟩).downgrade ⟨0⟩ [] =
        Except.error (mismatchMsg ⟨0⟩ ⟨1⟩) ∧
      (LockedArc.raw_lock (α := Nat) ⟨0⟩ ⟨1⟩).raw_unlock ⟨0⟩ =
        Except.error (mismatchMsg ⟨0⟩ ⟨1⟩)) :=
  ⟨by decide,
    wrong_key_always_fails ⟨0⟩ ⟨1⟩ (by decide) 0 ⟨[], 0⟩ ⟨⟨[], 0⟩⟩ ⟨⟨[], 0⟩⟩
      ⟨0⟩ ⟨0⟩ []⟩

theorem rc_get_mut_spec {α : Type} (l : LockedRc α) (h : RcHeap α)
    (c : RcCell α) (hc : h.get? l.ptr = some c) :
    (l.get_mut l.key_id h = Except.ok (some c.value) ↔
      c.strong = 1 ∧ c.weak = 0) ∧
    (¬(c.strong = 1 ∧ c.weak = 0) → l.get_mut l.key_id h = Except.ok none) ∧
    (l.get_mut l.key_id h = Except.ok (some c.value) ∨
      l.get_mut l.key_id h = Except.ok none) := by
  simp only [List.get?_eq_getElem?] at hc
  by_cases hu : c.strong = 1 ∧ c.weak = 0 <;>
    simp [LockedRc.get_mut, check_id_self, hc, hu, ok_bind]

theorem arc_get_mut_spec {α : Type} (l : LockedArc α) (h : RcHeap α)
    (c : RcCell α) (hc : h.get? l.ptr = some c) :
    (l.get_mut l.key_id h = Except.ok (some c.value) ↔
      c.strong = 1 ∧ c.weak = 0) ∧
    (¬(c.strong = 1 ∧ c.weak = 0) → l.get_mut l.key_id h = Except.ok none) ∧
    (l.get_mut l.key_id h = Except.ok (some c.value) ∨
      l.get_mut l.key_id h = Except.ok none) := by
  simp only [List.get?_eq_getElem?] at hc
  by_cases hu : c.strong = 1 ∧ c.weak = 0 <;>
    simp [LockedArc.get_mut, check_id_self, hc, hu, ok_bind]

/-- C5 is false as stated, at a concrete input: lock an `Rc` allocation
whose strong (owner) count is 1, `downgrade` it through the lock with the
matching key (leaving one weak, non-owning handle), and call `get_mut` with
the matching key.  The owner count is exactly one, yet `get_mut` yields the
absence result `None` instead of succeeding — for `LockedRc` and `LockedArc`
alike (`Rc::get_mut` also requires the weak count to be zero). -/
theorem get_mut_owner_count_counterexample :
    (LockedRc.raw_lock (α := Nat) ⟨0⟩ ⟨0⟩).downgrade ⟨0⟩ [⟨41, 1, 0⟩] =
      Except.ok (⟨0⟩, [⟨41, 1, 1⟩]) ∧
    RcHeap.strong_count ([⟨41, 1, 1⟩] : RcHeap Nat) 0 = some 1 ∧
    (LockedRc.raw_lock (α := Nat) ⟨0⟩ ⟨0⟩).get_mut ⟨0⟩ [⟨41, 1, 1⟩] =
      Except.ok none ∧
    (LockedArc.raw_lock (α := Nat) ⟨0⟩ ⟨0⟩).get_mut ⟨0⟩ [⟨41, 1, 1⟩] =
      Except.ok none := by
  refine ⟨rfl, rfl, rfl, rfl⟩

/-- C5 (amended): on a shared-ownership lock presented with the matching
key, `get_mut` succeeds exactly when the lock is the unique reference to the
allocation — owner (strong) count exactly one AND no outstanding weak
handles — and in every other case yields the explicit absence result `None`,
never a fatal error. -/
theorem get_mut_succeeds_iff_unique {α : Type} (l : LockedRc α)
    (la : LockedArc α) (k : KeyId) (h : RcHeap α) (c c' : RcCell α)
    (hk : k = l.key_id) (hc : h.get? l.ptr = some c)
    (hk' : k = la.key_id) (hc' : h.get? la.ptr = some c') :
    (l.get_mut k h = Except.ok (some c.value) ↔
      c.strong = 1 ∧ c.weak = 0) ∧
    (¬(c.strong = 1 ∧ c.weak = 0) → l.get_mut k h = Except.ok none) ∧
    (l.get_mut k h = Except.ok (some c.value) ∨
      l.get_mut k h = Except.ok none) ∧
    (la.get_mut k h = Except.ok (some c'.value) ↔
      c'.strong = 1 ∧ c'.weak = 0) ∧
    (¬(c'.strong = 1 ∧ c'.weak = 0) → la.get_mut k h = Except.ok none) ∧
    (la.get_mut k h = Except.ok (some c'.value) ∨
      la.get_mut k h = Except.ok none) := by
  subst hk
  have h1 := rc_get_mut_spec l h c hc
  have h2 := arc_get_mut_spec la h c' hc'
  rw [hk']
  exact ⟨(hk' ▸ h1.1), (hk' ▸ h1.2.1), (hk' ▸ h1.2.2), h2.1, h2.2.1, h2.2.2⟩

/-- Witness for C5 (amended): a two-owner allocation (strong count 2), where
`get_mut` with the matching key yields `None` on both variants. -/
theorem get_mut_succeeds_iff_unique_witness :
    (⟨3⟩ : KeyId) = (LockedRc.mk (α := Nat) 0 ⟨3⟩).key_id ∧
    ([⟨7, 2, 0⟩] : RcHeap Nat).get? 0 = some ⟨7, 2, 0⟩ ∧
    (((LockedRc.mk (α := Nat) 0 ⟨3⟩).get_mut ⟨3⟩ [⟨7, 2, 0⟩] =
          Except.ok (some 7) ↔ 2 = 1 ∧ 0 = 0) ∧
      (¬((2 : Nat) = 1 ∧ (0 : Nat) = 0) →
        (LockedRc.mk (α := Nat) 0 ⟨3⟩).get_mut ⟨3⟩ [⟨7, 2, 0⟩] =
          Except.ok none) ∧
      ((LockedRc.mk (α := Nat) 0 ⟨3⟩).get_mut ⟨3⟩ [⟨7, 2, 0⟩] =
          Except.ok (some 7) ∨
        (LockedRc.mk (α := Nat) 0 ⟨3⟩).get_mut ⟨3⟩ [⟨7, 2, 0⟩] =
          Except.ok none) ∧
      ((LockedArc.mk (α := Nat) 0 ⟨3⟩).get_mut ⟨3⟩ [⟨7, 2, 0⟩] =
          Except.ok (some 7) ↔ 2 = 1 ∧ 0 = 0) ∧
      (¬((2 : Nat) = 1 ∧ (0 : Nat) = 0) →
        (LockedArc.mk (α := Nat) 0 ⟨3⟩).get_mut ⟨3⟩ [⟨7, 2, 0⟩] =
          Except.ok none) ∧
      ((LockedArc.mk (α := Nat) 0 ⟨3⟩).get_mut ⟨3⟩ [⟨7, 2, 0⟩] =
          Except.ok (some 7) ∨
        (LockedArc.mk (α := Nat) 0 ⟨3⟩).get_mut ⟨3⟩ [⟨7, 2, 0⟩] =
          Except.ok none)) :=
  ⟨rfl, rfl,
    get_mut_succeeds_iff_unique (LockedRc.mk 0 ⟨3⟩) (LockedArc.mk 0 ⟨3⟩)
      ⟨3⟩ [⟨7, 2, 0⟩] ⟨7, 2, 0⟩ ⟨7, 2, 0⟩ rfl rfl rfl rfl⟩

/-- C9: calling `clone` on a shared-ownership lock with the matching key
increases the strong (owner) count of the allocation by exactly one, leaves
its value and weak count unchanged, and returns a new shared-ownership
handle to the same allocation (`ptr` equal to the lock's). -/
theorem clone_increments_owner_count {α : Type} (l : LockedRc α)
    (la : LockedArc α) (k : KeyId) (h : RcHeap α) (c c' : RcCell α)
    (hk : k = l.key_id) (hc : h.get? l.ptr = some c)
    (hk' : k = la.key_id) (hc' : h.get? la.ptr = some c') :
    l.clone k h =
      Except.ok (⟨l.ptr⟩, h.set l.ptr ⟨c.value, c.strong + 1, c.weak⟩) ∧
    RcHeap.strong_count (h.set l.ptr ⟨c.value, c.strong + 1, c.weak⟩)
        l.ptr = some (c.strong + 1) ∧
    (h.set l.ptr ⟨c.value, c.strong + 1, c.weak⟩).get? l.ptr =
      some ⟨c.value, c.strong + 1, c.weak⟩ ∧
    la.clone k h =
      Except.ok (⟨la.ptr⟩, h.set la.ptr ⟨c'.value, c'.strong + 1, c'.weak⟩) ∧
    RcHeap.strong_count (h.set la.ptr ⟨c'.value, c'.strong + 1, c'.weak⟩)
        la.ptr = some (c'.strong + 1) ∧
    (h.set la.ptr ⟨c'.value, c'.strong + 1, c'.weak⟩).get? la.ptr =
      some ⟨c'.value, c'.strong + 1, c'.weak⟩ := by
  subst hk
  simp only [List.get?_eq_getElem?] at hc hc'
  refine ⟨?_, ?_, ?_, ?_, ?_, ?_⟩
  · simp [LockedRc.clone, check_id_self, RcHeap.setCell, hc, ok_bind]
  · simp [RcHeap.strong_count, List.get?_eq_getElem?,
      List.getElem?_set_self', hc]
  · simp [List.get?_eq_getElem?, List.getElem?_set_self', hc]
  · rw [hk']
    simp [LockedArc.clone, check_id_self, RcHeap.setCell, hc', ok_bind]
  · simp [RcHeap.strong_count, List.get?_eq_getElem?,
      List.getElem?_set_self', hc']
  · simp [List.get?_eq_getElem?, List.getElem?_set_self', hc']

/-- Witness for C9: cloning a lock of a one-owner allocation yields a second
handle and strong count 2 on both variants. -/
theorem clone_increments_owner_count_witness :
    (⟨4⟩ : KeyId) = (LockedRc.mk (α := Nat) 0 ⟨4⟩).key_id ∧
    ([⟨7, 1, 0⟩] : RcHeap Nat).get? 0 = some ⟨7, 1, 0⟩ ∧
    ((LockedRc.mk (α := Nat) 0 ⟨4⟩).clone ⟨4⟩ [⟨7, 1, 0⟩] =
        Except.ok (⟨0⟩, [⟨7, 2, 0⟩]) ∧
      RcHeap.strong_count ([⟨7, 2, 0⟩] : RcHeap Nat) 0 = some 2 ∧
      ([⟨7, 2, 0⟩] : RcHeap Nat).get? 0 = some ⟨7, 2, 0⟩ ∧
      (LockedArc.mk (α := Nat) 0 ⟨4⟩).clone ⟨4⟩ [⟨7, 1, 0⟩] =
        Except.ok (⟨0⟩, [⟨7, 2, 0⟩]) ∧
      RcHeap.strong_count ([⟨7, 2, 0⟩] : RcHeap Nat) 0 = some 2 ∧
      ([⟨7, 2, 0⟩] : RcHeap Nat).get? 0 = some ⟨7, 2, 0⟩) :=
  ⟨rfl, rfl,
    clone_increments_owner_count (LockedRc.mk 0 ⟨4⟩) (LockedArc.mk 0 ⟨4⟩)
      ⟨4⟩ [⟨7, 1, 0⟩] ⟨7, 1, 0⟩ ⟨7, 1, 0⟩ rfl rfl rfl rfl⟩

theorem guardRun_all_ok {L U : Type} (ops : LockedOps L U)
    (key : ForgettingKey) :
    ∀ (ds : List (Dropper L)) (vs : List U),
      ds.map (fun d => d.unlock_drop ops key) = vs.map Except.ok →
      guardRun ops key ds = (vs, none) := by
  intro ds
  induction ds with
  | nil =>
    intro vs h
    cases vs with
    | nil => rfl
    | cons v vs => simp at h
  | cons d ds ih =>
    intro vs h
    cases vs with
    | nil => simp at h
    | cons v vs =>
      simp only [List.map_cons, List.cons.injEq] at h
      simp [guardRun, h.1, ih vs h.2]

theorem unlock_drop_all_all_ok {L U : Type} (ops : LockedOps L U)
    (key : ForgettingKey) :
    ∀ (ds : List (Dropper L)) (vs : List U),
      ds.map (fun d => d.unlock_drop ops key) = vs.map Except.ok →
      unlock_drop_all ops key ds = TeardownOutcome.completed vs := by
  intro ds
  induction ds with
  | nil =>
    intro vs h
    cases vs with
    | nil => rfl
    | cons v vs => simp at h
  | cons d ds ih =>
    intro vs h
    cases vs with
    | nil => simp at h
    | cons v vs =>
      simp only [List.map_cons, List.cons.injEq] at h
      simp [unlock_drop_all, h.1, ih vs h.2]

/-- C8: when `unlock_drop_all` processes an iterator of finalizer records and
the finalization of one record panics, all remaining records (those before
and after it) are still reverted and released before the failure propagates:
the outcome is `panicked` carrying exactly the releases of every non-failing
record, in order, and the failing record's panic message. -/
theorem teardown_releases_rest_after_panic {L U : Type} (ops : LockedOps L U)
    (key : ForgettingKey) (pre post : List (Dropper L)) (bad : Dropper L)
    (preVals postVals : List U) (e : String)
    (hpre : pre.map (fun d => d.unlock_drop ops key) = preVals.map Except.ok)
    (hbad : bad.unlock_drop ops key = Except.error e)
    (hpost : post.map (fun d => d.unlock_drop ops key) =
      postVals.map Except.ok) :
    unlock_drop_all ops key (pre ++ bad :: post) =
      TeardownOutcome.panicked (preVals ++ postVals) e := by
  induction pre generalizing preVals with
  | nil =>
    cases preVals with
    | cons v vs => simp at hpre
    | nil =>
      simp [unlock_drop_all, hbad, guardRun_all_ok ops key post postVals hpost]
  | cons d pre ih =>
    cases preVals with
    | nil => simp at hpre
    | cons v vs =>
      simp only [List.map_cons, List.cons.injEq] at hpre
      simp [unlock_drop_all, hpre.1, ih vs hpre.2]

/-- Witness for C8: three boxed integers locked under identity `0`, the
middle record wrongly tagged with identity `1` so its finalizer panics; the
other two are still released and the panic then propagates. -/
theorem teardown_releases_rest_after_panic_witness :
    ([⟨0, LockedBox.mk (1 : Nat) ⟨0⟩⟩] : List (Dropper (LockedBox Nat))).map
        (fun d => d.unlock_drop LockedBox.ops ⟨⟨0⟩⟩) =
      ([1] : List Nat).map Except.ok ∧
    (Dropper.mk 1 (LockedBox.mk (2 : Nat) ⟨1⟩)).unlock_drop
        LockedBox.ops ⟨⟨0⟩⟩ =
      Except.error (mismatchMsg ⟨0⟩ ⟨1⟩) ∧
    ([⟨2, LockedBox.mk (3 : Nat) ⟨0⟩⟩] : List (Dropper (LockedBox Nat))).map
        (fun d => d.unlock_drop LockedBox.ops ⟨⟨0⟩⟩) =
      ([3] : List Nat).map Except.ok ∧
    unlock_drop_all LockedBox.ops ⟨⟨0⟩⟩
        ([⟨0, LockedBox.mk (1 : Nat) ⟨0⟩⟩] ++
          ⟨1, LockedBox.mk (2 : Nat) ⟨1⟩⟩ ::
            [⟨2, LockedBox.mk (3 : Nat) ⟨0⟩⟩]) =
      TeardownOutcome.panicked ([1] ++ [3]) (mismatchMsg ⟨0⟩ ⟨1⟩) :=
  ⟨rfl, rfl, rfl,
    teardown_releases_rest_after_panic LockedBox.ops ⟨⟨0⟩⟩
      [⟨0, LockedBox.mk 1 ⟨0⟩⟩] [⟨2, LockedBox.mk 3 ⟨0⟩⟩]
      ⟨1, LockedBox.mk 2 ⟨1⟩⟩ [1] [3] (mismatchMsg ⟨0⟩ ⟨1⟩) rfl rfl rfl⟩

theorem local_key_lockAll_eq {L U : Type} (ops : LockedOps L U) :
    ∀ (vs : List U) (k : LocalDroppingKey L),
      (∀ d ∈ k.droppers, d.ptr < k.next_ptr) →
      k.lockAll ops vs =
        Except.ok (newDroppings ops k.inner.id k.next_ptr vs,
          ⟨k.inner, k.droppers ++ newEntries ops k.inner.id k.next_ptr vs,
            k.next_ptr + vs.length⟩) := by
  intro vs
  induction vs with
  | nil =>
    intro k hk
    cases k
    simp [LocalDroppingKey.lockAll, newDroppings, newEntries]
  | cons v vs ih =>
    intro k hk
    have hnotmem :
        k.droppers.any (fun d0 => decide (d0.ptr = k.next_ptr)) = false := by
      simp only [List.any_eq_false, decide_eq_true_eq]
      intro d hd
      exact Nat.ne_of_lt (hk d hd)
    have hk' : ∀ d ∈ k.droppers ++
        [(⟨k.next_ptr, ops.raw_clone (ops.raw_lock v k.inner.id)⟩ :
          Dropper L)], d.ptr < k.next_ptr + 1 := by
      intro d hd
      rcases List.mem_append.mp hd with hmem | hmem
      · exact Nat.lt_succ_of_lt (hk d hmem)
      · simp only [List.mem_singleton] at hmem
        subst hmem
        exact Nat.lt_succ_self _
    have hrec := ih ⟨k.inner,
      k.droppers ++ [⟨k.next_ptr, ops.raw_clone (ops.raw_lock v k.inner.id)⟩],
      k.next_ptr + 1⟩ hk'
    have hstep : k.lock ops v = Except.ok
        (⟨ops.raw_lock v k.inner.id, k.next_ptr⟩,
          ⟨k.inner, k.droppers ++
            [⟨k.next_ptr, ops.raw_clone (ops.raw_lock v k.inner.id)⟩],
            k.next_ptr + 1⟩) := by
      simp [LocalDroppingKey.lock, ForgettingKey.lock, hnotmem]
    simp only [LocalDroppingKey.lockAll, hstep, ok_bind, hrec, newDroppings,
      newEntries]
    simp [List.append_assoc]
    rw [Nat.add_assoc, Nat.add_comm 1 vs.length]
    rfl

theorem dropping_key_lockAll_eq {L U : Type} (ops : LockedOps L U) :
    ∀ (vs : List U) (k : DroppingKey L),
      (∀ d ∈ k.droppers, d.ptr < k.next_ptr) →
      k.lockAll ops vs =
        Except.ok (newDroppings ops k.inner.id k.next_ptr vs,
          ⟨k.inner, k.droppers ++ newEntries ops k.inner.id k.next_ptr vs,
            k.next_ptr + vs.length⟩) := by
  intro vs
  induction vs with
  | nil =>
    intro k hk
    cases k
    simp [DroppingKey.lockAll, newDroppings, newEntries]
  | cons v vs ih =>
    intro k hk
    have hnotmem :
        k.droppers.any (fun d0 => decide (d0.ptr = k.next_ptr)) = false := by
      simp only [List.any_eq_false, decide_eq_true_eq]
      intro d hd
      exact Nat.ne_of_lt (hk d hd)
    have hk' : ∀ d ∈ k.droppers ++
        [(⟨k.next_ptr, ops.raw_clone (ops.raw_lock v k.inner.id)⟩ :
          Dropper L)], d.ptr < k.next_ptr + 1 := by
      intro d hd
      rcases List.mem_append.mp hd with hmem | hmem
      · exact Nat.lt_succ_of_lt (hk d hmem)
      · simp only [List.mem_singleton] at hmem
        subst hmem
        exact Nat.lt_succ_self _
    have hrec := ih ⟨k.inner,
      k.droppers ++ [⟨k.next_ptr, ops.raw_clone (ops.raw_lock v k.inner.id)⟩],
      k.next_ptr + 1⟩ hk'
    have hstep : k.lock ops v = Except.ok
        (⟨ops.raw_lock v k.inner.id, k.next_ptr⟩,
          ⟨k.inner, k.droppers ++
            [⟨k.next_ptr, ops.raw_clone (ops.raw_lock v k.inner.id)⟩],
            k.next_ptr + 1⟩) := by
      simp [DroppingKey.lock, ForgettingKey.lock, hnotmem]
    simp only [DroppingKey.lockAll, hstep, ok_bind, hrec, newDroppings,
      newEntries]
    simp [List.append_assoc]
    rw [Nat.add_assoc, Nat.add_comm 1 vs.length]
    rfl

theorem newEntries_ptr_ge {L U : Type} (ops : LockedOps L U) (kid : KeyId) :
    ∀ (vs : List U) (p : Nat), ∀ d ∈ newEntries ops kid p vs, p ≤ d.ptr := by
  intro vs
  induction vs with
  | nil => intro p d hd; simp [newEntries] at hd
  | cons v vs ih =>
    intro p d hd
    simp only [newEntries, List.mem_cons] at hd
    rcases hd with hd | hd
    · subst hd; exact Nat.le_refl _
    · exact Nat.le_of_succ_le (ih (p + 1) d hd)

theorem unlock_drop_all_newEntries {L U : Type} (ops : LockedOps L U)
    (kid : KeyId)
    (hlaw : ∀ (v : U) (k : KeyId),
      ops.raw_unlock (ops.raw_clone (ops.raw_lock v k)) k = Except.ok v) :
    ∀ (vs : List U) (p : Nat),
      unlock_drop_all ops ⟨kid⟩ (newEntries ops kid p vs) =
        TeardownOutcome.completed vs := by
  intro vs
  induction vs with
  | nil => intro p; rfl
  | cons v vs ih =>
    intro p
    simp [newEntries, unlock_drop_all, Dropper.unlock_drop, hlaw, ih (p + 1)]

/-- C3: locking `N` values under a bookkeeping key (either flavor) without
explicitly unlocking any of them, then destroying the key, releases exactly
those `N` values, each exactly once (each reverted to unlocked form via the
inner minimal key, in registry order, which the claim's "in any order"
admits): the teardown outcome is `completed vs`, so no locked value outlives
its owning key.  The hypothesis is the round-trip law relating the variant's
`raw_lock`, `raw_clone` and `raw_unlock`, satisfied by every variant. -/
theorem bookkeeping_teardown_releases_all {L U : Type} (ops : LockedOps L U)
    (kid : KeyId) (vs : List U)
    (hlaw : ∀ (v : U) (k : KeyId),
      ops.raw_unlock (ops.raw_clone (ops.raw_lock v k)) k = Except.ok v) :
    ((LocalDroppingKey.new kid).lockAll ops vs).map
        (fun p => p.2.teardown ops) =
      Except.ok (TeardownOutcome.completed vs) ∧
    ((DroppingKey.new kid).lockAll ops vs).map
        (fun p => p.2.teardown ops) =
      Except.ok (TeardownOutcome.completed vs) := by
  constructor
  · rw [local_key_lockAll_eq ops vs (LocalDroppingKey.new kid)
      (by simp [LocalDroppingKey.new])]
    simp [LocalDroppingKey.teardown, LocalDroppingKey.new, Except.map,
      unlock_drop_all_newEntries ops kid hlaw vs 0]
  · rw [dropping_key_lockAll_eq ops vs (DroppingKey.new kid)
      (by simp [DroppingKey.new])]
    simp [DroppingKey.teardown, DroppingKey.new, Except.map,
      unlock_drop_all_newEntries ops kid hlaw vs 0]

theorem box_ops_round_trip {α : Type} (v : α) (k : KeyId) :
    (LockedBox.ops).raw_unlock ((LockedBox.ops).raw_lock v k) k =
      Except.ok v := by
  simp [LockedBox.ops, LockedBox.raw_lock, LockedBox.raw_unlock,
    check_id_self, ok_bind]

theorem box_ops_clone_round_trip {α : Type} (v : α) (k : KeyId) :
    (LockedBox.ops).raw_unlock ((LockedBox.ops).raw_clone
      ((LockedBox.ops).raw_lock v k)) k = Except.ok v := by
  simp [LockedBox.ops, LockedBox.raw_lock, LockedBox.raw_clone,
    LockedBox.raw_unlock, check_id_self, ok_bind]

/-- Witness for C3: three boxed integers `1, 2, 3` locked under both
bookkeeping-key flavors and never explicitly unlocked; teardown releases
exactly `[1, 2, 3]`. -/
theorem bookkeeping_teardown_releases_all_witness :
    (∀ (v : Nat) (k : KeyId),
      (LockedBox.ops).raw_unlock ((LockedBox.ops).raw_clone
        ((LockedBox.ops).raw_lock v k)) k = Except.ok v) ∧
    (((LocalDroppingKey.new (L := LockedBox Nat) ⟨0⟩).lockAll
          LockedBox.ops [1, 2, 3]).map
        (fun p => p.2.teardown LockedBox.ops) =
      Except.ok (TeardownOutcome.completed [1, 2, 3]) ∧
    ((DroppingKey.new (L := LockedBox Nat) ⟨0⟩).lockAll
          LockedBox.ops [1, 2, 3]).map
        (fun p => p.2.teardown LockedBox.ops) =
      Except.ok (TeardownOutcome.completed [1, 2, 3])) :=
  ⟨fun v k => box_ops_clone_round_trip v k,
    bookkeeping_teardown_releases_all LockedBox.ops ⟨0⟩ [1, 2, 3]
      (fun v k => box_ops_clone_round_trip v k)⟩

theorem newEntries_filter_ne {L U : Type} (ops : LockedOps L U) (kid : KeyId)
    (vs : List U) (p : Nat) :
    (newEntries ops kid (p + 1) vs).filter
        (fun d0 => decide (d0.ptr ≠ p)) = newEntries ops kid (p + 1) vs := by
  apply List.filter_eq_self.mpr
  intro d hd
  have hge := newEntries_ptr_ge ops kid vs (p + 1) d hd
  simp only [decide_eq_true_eq]
  omega

theorem local_key_unlockAll_eq {L U : Type} (ops : LockedOps L U)
    (kid : KeyId)
    (hlock : ∀ (v : U) (k0 : KeyId),
      ops.raw_unlock (ops.raw_lock v k0) k0 = Except.ok v) :
    ∀ (vs : List U) (p n : Nat),
      LocalDroppingKey.unlockAll ops ⟨⟨kid⟩, newEntries ops kid p vs, n⟩
          (newDroppings ops kid p vs) =
        Except.ok (vs, ⟨⟨kid⟩, [], n⟩) := by
  intro vs
  induction vs with
  | nil => intro p n; rfl
  | cons v vs ih =>
    intro p n
    have hstep : (⟨⟨kid⟩, newEntries ops kid p (v :: vs), n⟩ :
        LocalDroppingKey L).unlock ops ⟨ops.raw_lock v kid, p⟩ =
        Except.ok (v, ⟨⟨kid⟩, newEntries ops kid (p + 1) vs, n⟩) := by
      have hne : ∀ a ∈ newEntries ops kid (p + 1) vs, ¬a.ptr = p := by
        intro a ha
        have hge := newEntries_ptr_ge ops kid vs (p + 1) a ha
        omega
      simp [LocalDroppingKey.unlock, ForgettingKey.unlock, hlock, ok_bind,
        newEntries]
      exact hne
    simp only [newDroppings, LocalDroppingKey.unlockAll, hstep, ok_bind,
      ih (p + 1) n]
    rfl

theorem dropping_key_unlockAll_eq {L U : Type} (ops : LockedOps L U)
    (kid : KeyId)
    (hlock : ∀ (v : U) (k0 : KeyId),
      ops.raw_unlock (ops.raw_lock v k0) k0 = Except.ok v) :
    ∀ (vs : List U) (p n : Nat),
      DroppingKey.unlockAll ops ⟨⟨kid⟩, newEntries ops kid p vs, n⟩
          (newDroppings ops kid p vs) =
        Except.ok (vs, ⟨⟨kid⟩, [], n⟩) := by
  intro vs
  induction vs with
  | nil => intro p n; rfl
  | cons v vs ih =>
    intro p n
    have hstep : (⟨⟨kid⟩, newEntries ops kid p (v :: vs), n⟩ :
        DroppingKey L).unlock ops ⟨ops.raw_lock v kid, p⟩ =
        Except.ok (v, ⟨⟨kid⟩, newEntries ops kid (p + 1) vs, n⟩) := by
      have hne : ∀ a ∈ newEntries ops kid (p + 1) vs, ¬a.ptr = p := by
        intro a ha
        have hge := newEntries_ptr_ge ops kid vs (p + 1) a ha
        omega
      simp [DroppingKey.unlock, ForgettingKey.unlock, hlock, ok_bind,
        newEntries]
      exact hne
    simp only [newDroppings, DroppingKey.unlockAll, hstep, ok_bind,
      ih (p + 1) n]
    rfl

/-- C6: for both bookkeeping keys, `lock` inserts exactly one finalizer
record (tagged with the fresh box address returned in the `Dropping`),
explicit `unlock` removes exactly the matching record, and locking `N`
values then explicitly unlocking all `N` returns the original values, leaves
the registry empty, and makes a subsequent teardown release nothing. -/
theorem registry_record_iff_live {L U : Type} (ops : LockedOps L U)
    (kid : KeyId) (vs : List U) (k : LocalDroppingKey L) (k2 : DroppingKey L)
    (w : U) (dv : Dropping L) (v0 : U)
    (hlock : ∀ (v : U) (k0 : KeyId),
      ops.raw_unlock (ops.raw_lock v k0) k0 = Except.ok v)
    (hfresh : ∀ d ∈ k.droppers, d.ptr < k.next_ptr)
    (hunl : ops.raw_unlock dv.value k.inner.id = Except.ok v0)
    (hmem : k.droppers.any (fun d0 => decide (d0.ptr = dv.ptr)) = true)
    (hfresh2 : ∀ d ∈ k2.droppers, d.ptr < k2.next_ptr)
    (hunl2 : ops.raw_unlock dv.value k2.inner.id = Except.ok v0)
    (hmem2 : k2.droppers.any (fun d0 => decide (d0.ptr = dv.ptr)) = true) :
    k.lock ops w = Except.ok (⟨ops.raw_lock w k.inner.id, k.next_ptr⟩,
      ⟨k.inner, k.droppers ++
        [⟨k.next_ptr, ops.raw_clone (ops.raw_lock w k.inner.id)⟩],
        k.next_ptr + 1⟩) ∧
    k.unlock ops dv = Except.ok (v0, ⟨k.inner,
      k.droppers.filter (fun d0 => decide (d0.ptr ≠ dv.ptr)), k.next_ptr⟩) ∧
    ((LocalDroppingKey.new (L := L) kid).lockAll ops vs).bind
        (fun p => p.2.unlockAll ops p.1) =
      Except.ok (vs, ⟨⟨kid⟩, [], vs.length⟩) ∧
    (⟨⟨kid⟩, [], vs.length⟩ : LocalDroppingKey L).teardown ops =
      TeardownOutcome.completed [] ∧
    k2.lock ops w = Except.ok (⟨ops.raw_lock w k2.inner.id, k2.next_ptr⟩,
      ⟨k2.inner, k2.droppers ++
        [⟨k2.next_ptr, ops.raw_clone (ops.raw_lock w k2.inner.id)⟩],
        k2.next_ptr + 1⟩) ∧
    k2.unlock ops dv = Except.ok (v0, ⟨k2.inner,
      k2.droppers.filter (fun d0 => decide (d0.ptr ≠ dv.ptr)), k2.next_ptr⟩) ∧
    ((DroppingKey.new (L := L) kid).lockAll ops vs).bind
        (fun p => p.2.unlockAll ops p.1) =
      Except.ok (vs, ⟨⟨kid⟩, [], vs.length⟩) ∧
    (⟨⟨kid⟩, [], vs.length⟩ : DroppingKey L).teardown ops =
      TeardownOutcome.completed [] := by
  refine ⟨?_, ?_, ?_, rfl, ?_, ?_, ?_, rfl⟩
  · have hnotmem :
        k.droppers.any (fun d0 => decide (d0.ptr = k.next_ptr)) = false := by
      simp only [List.any_eq_false, decide_eq_true_eq]
      exact fun d hd => Nat.ne_of_lt (hfresh d hd)
    simp [LocalDroppingKey.lock, ForgettingKey.lock, hnotmem]
  · simp [LocalDroppingKey.unlock, ForgettingKey.unlock, hunl, ok_bind, hmem]
  · rw [local_key_lockAll_eq ops vs (LocalDroppingKey.new kid)
      (by simp [LocalDroppingKey.new])]
    simp [LocalDroppingKey.new, Except.bind,
      local_key_unlockAll_eq ops kid hlock vs 0 vs.length]
  · have hnotmem :
        k2.droppers.any (fun d0 => decide (d0.ptr = k2.next_ptr)) = false := by
      simp only [List.any_eq_false, decide_eq_true_eq]
      exact fun d hd => Nat.ne_of_lt (hfresh2 d hd)
    simp [DroppingKey.lock, ForgettingKey.lock, hnotmem]
  · simp [DroppingKey.unlock, ForgettingKey.unlock, hunl2, ok_bind, hmem2]
  · rw [dropping_key_lockAll_eq ops vs (DroppingKey.new kid)
      (by simp [DroppingKey.new])]
    simp [DroppingKey.new, Except.bind,
      dropping_key_unlockAll_eq ops kid hlock vs 0 vs.length]

/-- Witness for C6: a bookkeeping key of either flavor holding one record
(a boxed `4` at address `0`), a fresh lock of `9`, an explicit unlock of the
boxed `4`, and a lock-2-then-unlock-2 scenario ending with an empty registry
and a release-free teardown. -/
theorem registry_record_iff_live_witness :
    (∀ (v : Nat) (k0 : KeyId),
      (LockedBox.ops).raw_unlock ((LockedBox.ops).raw_lock v k0) k0 =
        Except.ok v) ∧
    (∀ d ∈ ([⟨0, LockedBox.mk 4 ⟨5⟩⟩] : List (Dropper (LockedBox Nat))),
      d.ptr < 1) ∧
    (LockedBox.ops).raw_unlock (LockedBox.mk 4 ⟨5⟩) ⟨5⟩ = Except.ok 4 ∧
    (([⟨0, LockedBox.mk 4 ⟨5⟩⟩] : List (Dropper (LockedBox Nat))).any
      (fun d0 => decide (d0.ptr = 0)) = true) ∧
    ((⟨⟨⟨5⟩⟩, [⟨0, LockedBox.mk 4 ⟨5⟩⟩], 1⟩ :
          LocalDroppingKey (LockedBox Nat)).lock LockedBox.ops 9 =
        Except.ok (⟨LockedBox.mk 9 ⟨5⟩, 1⟩,
          ⟨⟨⟨5⟩⟩, [⟨0, LockedBox.mk 4 ⟨5⟩⟩, ⟨1, LockedBox.mk 9 ⟨5⟩⟩], 2⟩) ∧
      (⟨⟨⟨5⟩⟩, [⟨0, LockedBox.mk 4 ⟨5⟩⟩], 1⟩ :
          LocalDroppingKey (LockedBox Nat)).unlock LockedBox.ops
          ⟨LockedBox.mk 4 ⟨5⟩, 0⟩ =
        Except.ok (4, ⟨⟨⟨5⟩⟩, [], 1⟩) ∧
      ((LocalDroppingKey.new (L := LockedBox Nat) ⟨0⟩).lockAll
            LockedBox.ops [1, 2]).bind
          (fun p => p.2.unlockAll LockedBox.ops p.1) =
        Except.ok ([1, 2], ⟨⟨⟨0⟩⟩, [], 2⟩) ∧
      (⟨⟨⟨0⟩⟩, [], 2⟩ : LocalDroppingKey (LockedBox Nat)).teardown
          LockedBox.ops =
        TeardownOutcome.completed [] ∧
      (⟨⟨⟨5⟩⟩, [⟨0, LockedBox.mk 4 ⟨5⟩⟩], 1⟩ :
          DroppingKey (LockedBox Nat)).lock LockedBox.ops 9 =
        Except.ok (⟨LockedBox.mk 9 ⟨5⟩, 1⟩,
          ⟨⟨⟨5⟩⟩, [⟨0, LockedBox.mk 4 ⟨5⟩⟩, ⟨1, LockedBox.mk 9 ⟨5⟩⟩], 2⟩) ∧
      (⟨⟨⟨5⟩⟩, [⟨0, LockedBox.mk 4 ⟨5⟩⟩], 1⟩ :
          DroppingKey (LockedBox Nat)).unlock LockedBox.ops
          ⟨LockedBox.mk 4 ⟨5⟩, 0⟩ =
        Except.ok (4, ⟨⟨⟨5⟩⟩, [], 1⟩) ∧
      ((DroppingKey.new (L := LockedBox Nat) ⟨0⟩).lockAll
            LockedBox.ops [1, 2]).bind
          (fun p => p.2.unlockAll LockedBox.ops p.1) =
        Except.ok ([1, 2], ⟨⟨⟨0⟩⟩, [], 2⟩) ∧
      (⟨⟨⟨0⟩⟩, [], 2⟩ : DroppingKey (LockedBox Nat)).teardown
          LockedBox.ops =
        TeardownOutcome.completed []) :=
  ⟨fun v k0 => box_ops_round_trip v k0, by decide, rfl, rfl,
    registry_record_iff_live LockedBox.ops ⟨0⟩ [1, 2]
      ⟨⟨⟨5⟩⟩, [⟨0, LockedBox.mk 4 ⟨5⟩⟩], 1⟩
      ⟨⟨⟨5⟩⟩, [⟨0, LockedBox.mk 4 ⟨5⟩⟩], 1⟩ 9 ⟨LockedBox.mk 4 ⟨5⟩, 0⟩ 4
      (fun v k0 => box_ops_round_trip v k0) (by decide) rfl rfl
      (by decide) rfl rfl⟩

end OwningKey
